import Mathlib

/-
  Verification development for the ibex-db-lambda repository: a multi-tenant
  ACID database service over object storage (PyIceberg writes, DuckDB reads).

  The definitions below are a shallow embedding, translated from the Python
  sources:
    - src/src/operations_full_iceberg.py  (engine: write, query, update,
      delete, hard_delete, compact, caches)
    - src/src/query_builder.py            (TypeSafeQueryBuilder)
    - src/src/lambda_handler.py           (operation dispatch)
    - src/src/models.py                   (request shapes)

  Machine-level details that the claims do not touch (Arrow schema casting,
  S3/catalog I/O, exception plumbing) are represented by explicit parameters
  or noted in the doc comment of the definition that abstracts them.
-/

namespace IbexDb

set_option maxRecDepth 8000

/-- JSON-like scalar values carried in request payloads, filter values and
stored rows.  Mirrors the Python scalars that flow through the engine
(None, bool, int, str). -/
inductive Val where
  | null
  | bool (b : Bool)
  | int (n : Int)
  | str (s : String)
deriving DecidableEq, Repr

/-- A record / stored row, modelling a Python dict as an association list in
insertion order with unique keys (system columns are entries like any other,
exactly as in the DuckDB result dicts the engine manipulates). -/
abbrev Rec := List (String × Val)

/-- Dict read: first binding for the key, mirroring `record["k"]` /
`record.get("k")`. -/
def getVal (r : Rec) (k : String) : Option Val :=
  match r with
  | [] => none
  | (k₂, v) :: rest => if k₂ = k then some v else getVal rest k

/-- Dict write `record["k"] = v`: replace the binding in place if present,
otherwise append (Python dicts keep insertion order). -/
def setVal (r : Rec) (k : String) (v : Val) : Rec :=
  match r with
  | [] => [(k, v)]
  | (k₂, v₂) :: rest =>
      if k₂ = k then (k, v) :: rest else (k₂, v₂) :: setVal rest k v

/-- `record.update(d)`: apply the bindings of `d` left to right. -/
def setVals (r : Rec) : List (String × Val) → Rec
  | [] => r
  | (k, v) :: rest => setVals (setVal r k v) rest

/-- The value a Python dict would hold for key `k` after `update(kvs)`:
the last binding for `k` in `kvs` wins. -/
def lookupLast (kvs : List (String × Val)) (k : String) : Option Val :=
  match kvs with
  | [] => none
  | (k₂, v) :: rest =>
      match lookupLast rest k with
      | some w => some w
      | none => if k₂ = k then some v else none

/-- Whether an update map binds the key `k`. -/
def bindsKey (kvs : List (String × Val)) (k : String) : Bool :=
  kvs.any (fun p => p.1 == k)

theorem getVal_setVal_self (r : Rec) (k : String) (v : Val) :
    getVal (setVal r k v) k = some v := by
  induction r with
  | nil => simp [setVal, getVal]
  | cons p rest ih =>
      obtain ⟨k₁, v₁⟩ := p
      by_cases hp : k₁ = k
      · subst hp
        simp [setVal, getVal]
      · simp [setVal, hp, getVal, ih]

theorem getVal_setVal_ne (r : Rec) (k k₂ : String) (v : Val) (h : k₂ ≠ k) :
    getVal (setVal r k v) k₂ = getVal r k₂ := by
  induction r with
  | nil => simp [setVal, getVal, Ne.symm h]
  | cons p rest ih =>
      obtain ⟨k₁, v₁⟩ := p
      by_cases hp : k₁ = k
      · subst hp
        simp [setVal, getVal, Ne.symm h]
      · simp [setVal, hp, getVal, ih]

theorem getVal_setVals_not_bound (r : Rec) (kvs : List (String × Val))
    (k : String) (h : bindsKey kvs k = false) :
    getVal (setVals r kvs) k = getVal r k := by
  induction kvs generalizing r with
  | nil => rfl
  | cons p rest ih =>
      obtain ⟨k₂, v₂⟩ := p
      simp only [bindsKey, List.any_cons, Bool.or_eq_false_iff,
        beq_eq_false_iff_ne, ne_eq] at h
      simp only [setVals]
      rw [ih _ (by simpa [bindsKey] using h.2)]
      exact getVal_setVal_ne _ _ _ _ (Ne.symm h.1)

theorem lookupLast_none_not_bound (kvs : List (String × Val)) (k : String)
    (h : lookupLast kvs k = none) : bindsKey kvs k = false := by
  induction kvs with
  | nil => rfl
  | cons p rest ih =>
      obtain ⟨k₂, v₂⟩ := p
      simp only [lookupLast] at h
      cases hrest : lookupLast rest k with
      | some w => rw [hrest] at h; cases h
      | none =>
          rw [hrest] at h
          by_cases hp : k₂ = k
          · rw [if_pos hp] at h; cases h
          · simp only [bindsKey, List.any_cons, Bool.or_eq_false_iff]
            exact ⟨by simp [hp], by simpa [bindsKey] using ih hrest⟩

theorem getVal_setVals_bound (r : Rec) (kvs : List (String × Val))
    (k : String) (v : Val) (h : lookupLast kvs k = some v) :
    getVal (setVals r kvs) k = some v := by
  induction kvs generalizing r with
  | nil => cases h
  | cons p rest ih =>
      obtain ⟨k₂, v₂⟩ := p
      simp only [setVals]
      simp only [lookupLast] at h
      cases hrest : lookupLast rest k with
      | some w =>
          rw [hrest] at h
          exact ih _ (hrest.trans h)
      | none =>
          rw [hrest] at h
          by_cases hp : k₂ = k
          · rw [if_pos hp] at h
            injection h with h
            subst hp
            rw [getVal_setVals_not_bound _ _ _ (lookupLast_none_not_bound _ _ hrest),
              ← h, getVal_setVal_self]
          · rw [if_neg hp] at h; cases h

/-! ## System-column enrichment and the WRITE path

From FullIcebergOperations.write (src/src/operations_full_iceberg.py,
lines 500-644). -/

/-- Deterministic serialization of a value, standing in for the JSON text
that `json.dumps` would produce for it. -/
def Val.serialize : Val → String
  | .null => "null"
  | .bool b => cond b "true" "false"
  | .int n => toString n
  | .str s => "s:" ++ s

/-- Insertion of a string into a sorted list (structural insertion sort,
so concrete digests evaluate by kernel reduction). -/
def insertSorted (s : String) : List String → List String
  | [] => [s]
  | x :: xs => if s ≤ x then s :: x :: xs else x :: insertSorted s xs

def sortStrings : List String → List String
  | [] => []
  | x :: xs => insertSorted x (sortStrings xs)

/-- `hashlib.md5(json.dumps(record, sort_keys=True).encode()).hexdigest()`:
the content digest of a payload with keys sorted.  MD5 of the key-sorted
JSON text is modelled by the key-sorted serialization itself; both are
deterministic functions of the payload content alone, which is the property
the claims consume. -/
def recordDigest (payload : Rec) : String :=
  String.intercalate ";"
    (sortStrings (payload.map (fun p => p.1 ++ "=" ++ p.2.serialize)))

/-- Record enrichment in FullIcebergOperations.write: `record.copy()`
followed by `.update({_tenant_id, _record_id, _timestamp, _version: 1,
_deleted: False, _deleted_at: None})`.  Timestamps are modelled as integer
instants (`now`). -/
def enrichRecord (tenant_id : String) (now : Int) (record : Rec) : Rec :=
  setVals record
    [ ("_tenant_id", .str tenant_id)
    , ("_record_id", .str (recordDigest record))
    , ("_timestamp", .int now)
    , ("_version", .int 1)
    , ("_deleted", .bool false)
    , ("_deleted_at", .null) ]

/-- The per-process metadata cache `_metadata_cache`:
table identifier ↦ (metadata path, store time). -/
abbrev MetaCache := List (String × String × Int)

/-- `if table_identifier in self._metadata_cache: del ...` -/
def eraseCacheEntry (cache : MetaCache) (id : String) : MetaCache :=
  cache.filter (fun e => e.1 ≠ id)

/-- FullIcebergOperations.write, data/cache effect: enrich every record with
system columns (always `_version = 1`), append the batch to the table, then
invalidate this table entry of the metadata cache.  Returns the new table,
the new cache and `records_written`.  (Arrow gap-fill/reorder/cast and the
opportunistic compaction probe do not change row content or count and are
not modelled.) -/
def write (tenant_id : String) (now : Int) (records : List Rec)
    (table : List Rec) (cache : MetaCache) (id : String) :
    List Rec × MetaCache × Nat :=
  let enriched := records.map (enrichRecord tenant_id now)
  (table ++ enriched, eraseCacheEntry cache id, enriched.length)

/-! ## Filters and their SQL evaluation

Filter model from src/src/models.py (class Filter); evaluation is the
standard SQL three-valued comparison semantics of the embedded engine
(DuckDB, an external collaborator per the spec), collapsed to row
inclusion: a NULL comparison never includes the row. -/

/-- The value slot of a filter is `Any` in Python; the builder only ever
distinguishes lists (for the in-operator) from scalars. -/
inductive FilterValue where
  | val (v : Val)
  | vlist (vs : List Val)
deriving DecidableEq, Repr

structure Filter where
  field : String
  operator : String
  value : FilterValue
deriving DecidableEq, Repr

/-- SQL LIKE pattern matching over characters: `%` matches any run, `_` one
character.  Fuel-indexed so the definition is structural (the fuel used by
`likeMatch` below always suffices). -/
def likeMatchAux : Nat → List Char → List Char → Bool
  | 0, _, _ => false
  | _ + 1, [], [] => true
  | fuel + 1, s, '%' :: p =>
      likeMatchAux fuel s p ||
        (match s with
         | [] => false
         | _ :: s₂ => likeMatchAux fuel s₂ ('%' :: p))
  | _ + 1, [], _ :: _ => false
  | _ + 1, _ :: _, [] => false
  | fuel + 1, _ :: s₂, '_' :: p => likeMatchAux fuel s₂ p
  | fuel + 1, c :: s₂, c₂ :: p =>
      (c == c₂) && likeMatchAux fuel s₂ p

/-- `s LIKE pattern` for strings. -/
def likeMatch (s pattern : String) : Bool :=
  likeMatchAux (s.length + pattern.length + 1) s.data pattern.data

/-- Three-valued SQL comparison collapsed to an optional ordering: integers
by numeric order, strings lexicographically; any other pairing (including
NULL operands) yields no ordering and therefore excludes the row. -/
def valCompare : Val → Val → Option Ordering
  | .int a, .int b => some (compare a b)
  | .str a, .str b => some (compare a b)
  | _, _ => none

/-- Row inclusion under one filter atom, as the embedded engine evaluates
the parameterized condition emitted by
TypeSafeQueryBuilder._build_single_filter: NULL never matches. -/
def evalFilter (f : Filter) (r : Rec) : Bool :=
  match getVal r f.field with
  | none => false
  | some Val.null => false
  | some v =>
      match f.operator, f.value with
      | "eq", .val w => w ≠ Val.null && v == w
      | "ne", .val w => w ≠ Val.null && v != w
      | "gt", .val w => valCompare v w == some Ordering.gt
      | "gte", .val w =>
          valCompare v w == some Ordering.gt || valCompare v w == some Ordering.eq
      | "lt", .val w => valCompare v w == some Ordering.lt
      | "lte", .val w =>
          valCompare v w == some Ordering.lt || valCompare v w == some Ordering.eq
      | "in", .vlist vs => vs.any (fun w => w ≠ Val.null && v == w)
      | "like", .val (Val.str p) =>
          match v with
          | Val.str s => likeMatch s p
          | _ => false
      | _, _ => false

/-- `_tenant_id = :tenant` as injected by every engine query. -/
def tenantEq (tenant : String) (r : Rec) : Bool :=
  getVal r "_tenant_id" == some (Val.str tenant)

/-- `_deleted IS TRUE` (so `_deleted IS NOT TRUE` keeps NULL and false). -/
def isDeletedTrue (r : Rec) : Bool :=
  getVal r "_deleted" == some (Val.bool true)

/-! ## Latest-version selection and the UPDATE / soft-DELETE path

From FullIcebergOperations.update (src/src/operations_full_iceberg.py,
lines 828-930) and FullIcebergOperations.delete (lines 932-965).  In the
update SQL the tenant equality, `_deleted IS NOT TRUE` and the user filters
sit INSIDE the ranked CTE, before `rn = 1` selects the maximal `_version`
per `_record_id`. -/

/-- The WHERE clause inside the update CTE. -/
def matchesUpdateWhere (tenant : String) (fs : List Filter) (r : Rec) : Bool :=
  tenantEq tenant r && !isDeletedTrue r && fs.all (fun f => evalFilter f r)

/-- The `_version` column as an integer, used for ranking.  Stored rows
always carry an integer version (the write path casts to Int32). -/
def verOf (r : Rec) : Int :=
  match getVal r "_version" with
  | some (Val.int n) => n
  | _ => 0

def recordIdOf (r : Rec) : Option Val := getVal r "_record_id"

/-- Distinct elements in order of first appearance (structural, so that
concrete traces evaluate by kernel reduction). -/
def dedupFirstAux : List (Option Val) → List (Option Val) → List (Option Val)
  | [], _ => []
  | x :: xs, seen =>
      if x ∈ seen then dedupFirstAux xs seen
      else x :: dedupFirstAux xs (x :: seen)

def dedupFirst (l : List (Option Val)) : List (Option Val) :=
  dedupFirstAux l []

/-- The row `ROW_NUMBER() ... ORDER BY _version DESC` ranks first: maximal
version, ties broken deterministically (the engine leaves tie order
unspecified; the model keeps the first stored row). -/
def pickLatest (l : List Rec) : Option Rec :=
  l.foldl
    (fun acc r =>
      match acc with
      | none => some r
      | some b => if verOf r > verOf b then some r else some b)
    none

/-- `SELECT * FROM ranked_records WHERE rn = 1`: one row per `_record_id`,
the one with maximal `_version` among the rows of `l`. -/
def latestPerRecordId (l : List Rec) : List Rec :=
  (dedupFirst (l.map recordIdOf)).filterMap
    (fun id => pickLatest (l.filter (fun r => recordIdOf r == id)))

/-- `int(record.get("_version", 1))`: missing versions default to 1,
Python bools coerce to 0/1 (other non-numeric values would raise inside
the engine and are mapped to the default here). -/
def verAsInt (r : Rec) : Int :=
  match getVal r "_version" with
  | some (Val.int n) => n
  | some (Val.bool b) => cond b 1 0
  | _ => 1

/-- NaT / None normalization of `_deleted_at` before the patch: a missing
time stays missing, a null one is (re)stored as null. -/
def normalizeDeletedAt (r : Rec) : Rec :=
  match getVal r "_deleted_at" with
  | some Val.null => setVal r "_deleted_at" Val.null
  | _ => r

/-- Per-row update step: `_version ← int(get("_version",1)) + 1`,
`_timestamp ← now`, NaT normalization, then `record.update(request.updates)`
— the user patch is applied LAST. -/
def applyUpdateRow (now : Int) (updates : List (String × Val)) (r : Rec) :
    Rec :=
  let r₁ := setVal r "_version" (Val.int (verAsInt r + 1))
  let r₂ := setVal r₁ "_timestamp" (Val.int now)
  let r₃ := normalizeDeletedAt r₂
  setVals r₃ updates

/-- The matched row set of an update: WHERE inside the CTE, then `rn = 1`. -/
def updateMatched (tenant : String) (fs : List Filter) (t : List Rec) :
    List Rec :=
  latestPerRecordId (t.filter (matchesUpdateWhere tenant fs))

structure UpdateResult where
  table : List Rec
  records_updated : Nat
  success : Bool
  errorCode : Option String
deriving DecidableEq, Repr

/-- FullIcebergOperations.update: select the latest matching versions,
bump each and append the batch.  An empty filter list makes
`_build_filters` return an empty condition string, so the interpolated
`AND ()` is malformed SQL, the engine raises, and the operation reports
UPDATE_ERROR leaving the table unchanged. -/
def update (tenant : String) (now : Int) (updates : List (String × Val))
    (fs : List Filter) (t : List Rec) : UpdateResult :=
  if fs.isEmpty then
    { table := t, records_updated := 0, success := false,
      errorCode := some "UPDATE_ERROR" }
  else
    let matched := updateMatched tenant fs t
    { table := t ++ matched.map (applyUpdateRow now updates),
      records_updated := matched.length, success := true, errorCode := none }

structure DeleteResult where
  table : List Rec
  records_deleted : Nat
  success : Bool
  errorCode : Option String
deriving DecidableEq, Repr

/-- FullIcebergOperations.delete: soft delete, implemented by constructing
an UpdateRequest with the same tenant, namespace, table and filters and the
updates map `{_deleted: True, _deleted_at: utcnow()}`, then mapping the
update result (`records_deleted` := `records_updated` when data is
present, success and error forwarded). -/
def delete (tenant : String) (now : Int) (fs : List Filter) (t : List Rec) :
    DeleteResult :=
  let u := update tenant now
    [("_deleted", Val.bool true), ("_deleted_at", Val.int now)] fs t
  { table := u.table,
    records_deleted := if u.success then u.records_updated else 0,
    success := u.success, errorCode := u.errorCode }

/-! ## Table identifiers -/

/-- FullIcebergOperations._get_namespace: hyphens replaced by
underscores (`.replace("-", "_")`, a per-character substitution). -/
def getNamespace (tenant_id ns : String) : String :=
  String.mk ((tenant_id ++ "_" ++ ns).data.map
    (fun c => if c == '-' then '_' else c))

/-- FullIcebergOperations._get_table_identifier. -/
def getTableIdentifier (tenant_id ns table : String) : String :=
  getNamespace tenant_id ns ++ "." ++ table

/-! ## Hard delete and the catalog-native filter lowering

From FullIcebergOperations.hard_delete (lines 967-1068) and
FullIcebergOperations._build_iceberg_filter_from_array (lines 1104-1145). -/

/-- PyIceberg row-filter expressions as constructed by the lowering. -/
inductive IcebergExpr where
  | equalTo (field : String) (v : Val)
  | notEqualTo (field : String) (v : Val)
  | greaterThan (field : String) (v : Val)
  | greaterThanOrEqual (field : String) (v : Val)
  | lessThan (field : String) (v : Val)
  | lessThanOrEqual (field : String) (v : Val)
  | isin (field : String) (vs : List Val)
  | and (a b : IcebergExpr)
deriving DecidableEq, Repr

/-- One filter atom lowered to a PyIceberg expression.  The operator chain
in the source has NO branch for "like" (comment there: LIKE is not
supported by PyIceberg expressions), so a like-filter contributes nothing
to the expression — it is silently skipped, not rejected.  (A non-list
value under "in" would raise at the catalog layer; the claims never reach
that shape.) -/
def icebergAtom (f : Filter) : Option IcebergExpr :=
  match f.operator, f.value with
  | "eq", .val v => some (.equalTo f.field v)
  | "ne", .val v => some (.notEqualTo f.field v)
  | "gt", .val v => some (.greaterThan f.field v)
  | "gte", .val v => some (.greaterThanOrEqual f.field v)
  | "lt", .val v => some (.lessThan f.field v)
  | "lte", .val v => some (.lessThanOrEqual f.field v)
  | "in", .vlist vs => some (.isin f.field vs)
  | _, _ => none

/-- FullIcebergOperations._build_iceberg_filter_from_array: lower every
supported atom and AND them left-to-right; none when nothing survives. -/
def buildIcebergFilterFromArray (filters : List Filter) : Option IcebergExpr :=
  if filters.isEmpty then none
  else
    match filters.filterMap icebergAtom with
    | [] => none
    | e :: rest => some (rest.foldl IcebergExpr.and e)

/-- Evaluation of a PyIceberg row filter (contract of `Table.delete`,
§6.3 of the spec: rows satisfying the expression are physically removed). -/
def evalIcebergExpr : IcebergExpr → Rec → Bool
  | .equalTo f v, r => getVal r f == some v
  | .notEqualTo f v, r =>
      match getVal r f with
      | some w => w ≠ Val.null && w != v
      | none => false
  | .greaterThan f v, r =>
      match getVal r f with
      | some w => valCompare w v == some Ordering.gt
      | none => false
  | .greaterThanOrEqual f v, r =>
      match getVal r f with
      | some w => valCompare w v == some Ordering.gt ||
          valCompare w v == some Ordering.eq
      | none => false
  | .lessThan f v, r =>
      match getVal r f with
      | some w => valCompare w v == some Ordering.lt
      | none => false
  | .lessThanOrEqual f v, r =>
      match getVal r f with
      | some w => valCompare w v == some Ordering.lt ||
          valCompare w v == some Ordering.eq
      | none => false
  | .isin f vs, r =>
      match getVal r f with
      | some w => vs.any (fun v => w == v)
      | none => false
  | .and a b, r => evalIcebergExpr a r && evalIcebergExpr b r

/-- The pre-delete count: `SELECT COUNT(*) ... WHERE _tenant_id = :t AND
(filters)` — note the count SQL ranks nothing and keeps soft-deleted rows,
so it counts every stored version matching the filters. -/
def countSqlMatches (tenant : String) (fs : List Filter) (t : List Rec) :
    Nat :=
  (t.filter (fun r => tenantEq tenant r && fs.all (fun f => evalFilter f r))).length

structure HardDeleteData where
  records_deleted : Nat
  files_rewritten : Int
deriving DecidableEq, Repr

structure HardDeleteResult where
  success : Bool
  errorCode : Option String
  data : Option HardDeleteData
deriving DecidableEq, Repr

/-- FullIcebergOperations.hard_delete.  `files` abstracts
`len(list(table.scan().plan_files()))` (the physical file count is a
function of the committed table state).  The returned metadata cache is
the input cache in every branch: the source function never touches
`_metadata_cache`.  An empty filter list would interpolate `AND ()` into
the count SQL, which the engine rejects → HARD_DELETE_ERROR. -/
def hard_delete (tenant : String) (confirm : Bool) (fs : List Filter)
    (files : List Rec → Nat) (t : List Rec) (cache : MetaCache) :
    HardDeleteResult × List Rec × MetaCache :=
  if !confirm then
    ({ success := false, errorCode := some "CONFIRMATION_REQUIRED",
       data := none }, t, cache)
  else if fs.isEmpty then
    ({ success := false, errorCode := some "HARD_DELETE_ERROR",
       data := none }, t, cache)
  else
    let n := countSqlMatches tenant fs t
    if n = 0 then
      ({ success := true, errorCode := none,
         data := some { records_deleted := 0, files_rewritten := 0 } },
       t, cache)
    else
      let tenantFilter := IcebergExpr.equalTo "_tenant_id" (Val.str tenant)
      let combined :=
        match buildIcebergFilterFromArray fs with
        | some e => IcebergExpr.and tenantFilter e
        | none => tenantFilter
      let files_before := files t
      let t₂ := t.filter (fun r => !evalIcebergExpr combined r)
      let files_after := files t₂
      ({ success := true, errorCode := none,
         data := some { records_deleted := n,
                        files_rewritten := (files_before : Int) - files_after } },
       t₂, cache)

/-! ## TypeSafeQueryBuilder: parameterized SQL for filters

From src/src/query_builder.py, duckdb dialect (param style "?"). -/

namespace TypeSafeQueryBuilder

/-- `self.param_style` for the duckdb dialect. -/
def param_style : String := "?"

/-- Stand-in for Python `type(value)` in the IN error message. -/
def pyTypeName : FilterValue → String
  | .val Val.null => "NoneType"
  | .val (Val.bool _) => "bool"
  | .val (Val.int _) => "int"
  | .val (Val.str _) => "str"
  | .vlist _ => "list"

/-- `", ".join([self.param_style] * len(value))` -/
def placeholders (n : Nat) : String :=
  String.intercalate ", " (List.replicate n param_style)

/-- `operator_map.get(operator)` -/
def operatorSql (op : String) : Option String :=
  match op with
  | "eq" => some "="
  | "ne" => some "!="
  | "gt" => some ">"
  | "gte" => some ">="
  | "lt" => some "<"
  | "lte" => some "<="
  | "in" => some "IN"
  | "like" => some "LIKE"
  | _ => none

/-- TypeSafeQueryBuilder._build_single_filter: one condition string plus
its bound parameters; a ValueError becomes an `Except.error`. -/
def build_single_filter (f : Filter) :
    Except String (String × List FilterValue) :=
  match operatorSql f.operator with
  | none => .error ("Unsupported operator: " ++ f.operator)
  | some opSql =>
      if f.operator = "in" then
        match f.value with
        | .vlist vs =>
            .ok (f.field ++ " IN (" ++ placeholders vs.length ++ ")",
                 vs.map FilterValue.val)
        | v => .error ("IN operator requires a list value, got " ++ pyTypeName v)
      else if f.operator = "like" then
        .ok (f.field ++ " LIKE " ++ param_style, [f.value])
      else
        .ok (f.field ++ " " ++ opSql ++ " " ++ param_style, [f.value])

/-- The condition/parameter pairs of a filter list, failing on the first
bad filter exactly as the Python loop raises. -/
def buildConditions : List Filter →
    Except String (List (String × List FilterValue))
  | [] => .ok []
  | f :: rest =>
      match build_single_filter f with
      | .error e => .error e
      | .ok c =>
          match buildConditions rest with
          | .error e => .error e
          | .ok cs => .ok (c :: cs)

/-- `" AND ".join(conditions)` (str.join, spelled out). -/
def joinWith (s : String) : List String → String
  | [] => ""
  | [c] => c
  | c :: cs => c ++ s ++ joinWith s cs

/-- TypeSafeQueryBuilder._build_filters: AND-join the condition strings
(the source skips empty condition strings; `_build_single_filter` never
yields one, the guard is kept for fidelity) and prefix the clause
keyword when one is given. -/
def build_filters (filters : List Filter) (clause : String) :
    Except String (String × List FilterValue) :=
  if filters.isEmpty then .ok ("", [])
  else
    match buildConditions filters with
    | .error e => .error e
    | .ok built =>
        let kept := built.filter (fun c => c.1 ≠ "")
        let conditions := kept.map Prod.fst
        let params := (kept.map Prod.snd).flatten
        if conditions.isEmpty then .ok ("", [])
        else
          let sql := joinWith " AND " conditions
          .ok (if clause ≠ "" then clause ++ " " ++ sql else sql, params)

end TypeSafeQueryBuilder

/-! ## The QUERY SQL text

From FullIcebergOperations.query (lines 646-826) and
FullIcebergOperations._build_select_clause (lines 323-394).  The SQL is
reproduced up to whitespace; every interpolation point of the f-strings is
kept (notably `metadata_path` and `request.tenant_id` are spliced into the
text, while filter and having values travel in the parameter list). -/

/-- A single quote character, used by the SQL f-strings around interpolated
values. -/
def sq : String := String.mk [Char.ofNat 39]

/-- models.ProjectionField restricted to the attributes
`_build_select_clause` reads (field, upper / lower / trim flags, cast,
alias); the model ignores the others exactly as that function does. -/
structure ProjField where
  field : String
  upper : Bool
  lower : Bool
  trim : Bool
  cast : Option String
  aliasName : Option String
deriving DecidableEq, Repr

/-- A projection entry: a plain column name or a ProjectionField. -/
inductive Projection where
  | col (name : String)
  | field (p : ProjField)
deriving DecidableEq, Repr

/-- models.AggregateField restricted to the attributes
`_build_select_clause` reads. -/
structure AggregateField where
  field : Option String
  function : String
  aliasName : String
  distinct : Bool
deriving DecidableEq, Repr

/-- models.SortField: `order.value.upper()` yields ASC / DESC. -/
structure SortField where
  field : String
  desc : Bool
deriving DecidableEq, Repr

def sortOrderSql (desc : Bool) : String := cond desc "DESC" "ASC"

/-- Column expression of a ProjectionField (upper elif lower, then trim,
then cast, then alias). -/
def projExpr (p : ProjField) : String :=
  let f₁ :=
    if p.upper then "UPPER(" ++ p.field ++ ")"
    else if p.lower then "LOWER(" ++ p.field ++ ")"
    else p.field
  let f₂ := if p.trim then "TRIM(" ++ f₁ ++ ")" else f₁
  let f₃ :=
    match p.cast with
    | some c => "CAST(" ++ f₂ ++ " AS " ++ c ++ ")"
    | none => f₂
  match p.aliasName with
  | some a => f₃ ++ " AS " ++ a
  | none => f₃

/-- Aggregation expression (function upper-cased, DISTINCT flag, `(*)` when
no field, mandatory alias). -/
def aggExpr (a : AggregateField) : String :=
  let func := a.function.toUpper
  let e :=
    match a.field with
    | some f =>
        if a.distinct then func ++ "(DISTINCT " ++ f ++ ")"
        else func ++ "(" ++ f ++ ")"
    | none => func ++ "(*)"
  e ++ " AS " ++ a.aliasName

/-- FullIcebergOperations._build_select_clause. -/
def buildSelectClause (projection : List Projection)
    (aggregations : List AggregateField) : String :=
  let projParts :=
    if projection ≠ [] ∧ projection ≠ [Projection.col "*"] then
      projection.map (fun p =>
        match p with
        | .col s => s
        | .field pf => projExpr pf)
    else []
  let selectParts := projParts ++ aggregations.map aggExpr
  if selectParts.isEmpty then "*" else String.intercalate ", " selectParts

/-- The QueryRequest fields the read path consumes (models.QueryRequest);
empty lists model the absent / None payloads, matching Python truthiness
in the source. -/
structure QueryRequest where
  tenant_id : String
  ns : String
  table : String
  projection : List Projection
  aggregations : List AggregateField
  filters : List Filter
  group_by : List String
  having : List Filter
  sort : List SortField
  limit : Option Nat
  include_deleted : Bool
deriving DecidableEq, Repr

/-- `deleted_filter` in query(). -/
def deletedFilterSql (include_deleted : Bool) : String :=
  if include_deleted then "" else "AND _deleted IS NOT TRUE"

/-- The CTE f-string of query(), with its two interpolation points
(`metadata_path`, `request.tenant_id`) and the select clause /
deleted-filter splices; whitespace collapsed. -/
def baseQuerySql (metadata_path tenant select deletedF : String) : String :=
  "WITH ranked_records AS ( SELECT *, ROW_NUMBER() OVER (PARTITION BY " ++
  "_record_id ORDER BY _version DESC) as rn FROM iceberg_scan(" ++ sq ++
  metadata_path ++ sq ++ ") WHERE _tenant_id = " ++ sq ++ tenant ++ sq ++
  " ) SELECT " ++ select ++ " FROM ranked_records WHERE rn = 1 " ++ deletedF

/-- The full SQL text and parameter list produced by query() before
execution: filters appended as `AND (...)` with their parameters (the
builder is only invoked when the filter list is truthy), GROUP BY and
ORDER BY and LIMIT interpolated, HAVING appended with its parameters
(extended only when the having SQL is nonempty, as in the source).  A
builder ValueError propagates as the error that query() would surface as
QUERY_ERROR. -/
def buildQuerySql (metadata_path : String) (req : QueryRequest) :
    Except String (String × List FilterValue) :=
  let select := buildSelectClause req.projection req.aggregations
  let sql₀ := baseQuerySql metadata_path req.tenant_id select
    (deletedFilterSql req.include_deleted)
  match (if req.filters.isEmpty then Except.ok ("", [])
         else TypeSafeQueryBuilder.build_filters req.filters "") with
  | .error e => .error e
  | .ok (fsql, fparams) =>
      let sql₁ := if fsql ≠ "" then sql₀ ++ " AND (" ++ fsql ++ ")" else sql₀
      let sql₂ :=
        if req.group_by ≠ [] then
          sql₁ ++ " GROUP BY " ++ String.intercalate ", " req.group_by
        else sql₁
      match (if req.having.isEmpty then Except.ok ("", [])
             else TypeSafeQueryBuilder.build_filters req.having "") with
      | .error e => .error e
      | .ok (hsql, hparams) =>
          let sql₃ := if hsql ≠ "" then sql₂ ++ " HAVING " ++ hsql else sql₂
          let params := if hsql ≠ "" then fparams ++ hparams else fparams
          let sql₄ :=
            if req.sort ≠ [] then
              sql₃ ++ " ORDER BY " ++ String.intercalate ", "
                (req.sort.map (fun s => s.field ++ " " ++ sortOrderSql s.desc))
            else sql₃
          let sql₅ :=
            match req.limit with
            | some n => sql₄ ++ " LIMIT " ++ toString n
            | none => sql₄
          .ok (sql₅, params)

/-! ## The QUERY operation with its two caches

From FullIcebergOperations.query (lines 646-826) and
FullIcebergOperations._get_metadata_path (lines 282-311). -/

structure QueryMetadataE where
  row_count : Nat
  cache_hit : Bool
  query_id : Nat
deriving DecidableEq, Repr

structure QueryResponseData where
  records : List Rec
  query_metadata : QueryMetadataE
deriving DecidableEq, Repr

structure QueryResponse where
  success : Bool
  data : Option QueryResponseData
  errorCode : Option String
deriving DecidableEq, Repr

/-- `self._query_cache`: digest of the normalized request ↦
(cached successful response data, store time), in insertion order. -/
abbrev QueryCache := List (String × QueryResponseData × Int)

def serializeFilterValue : FilterValue → String
  | .val v => v.serialize
  | .vlist vs => "[" ++ String.intercalate "," (vs.map Val.serialize) ++ "]"

def serializeFilters (fs : List Filter) : String :=
  String.intercalate ","
    (fs.map (fun f => f.field ++ "|" ++ f.operator ++ "|" ++
      serializeFilterValue f.value))

def serializeProjection (ps : List Projection) : String :=
  String.intercalate ","
    (ps.map (fun p =>
      match p with
      | .col s => s
      | .field pf => pf.field ++ "." ++ toString pf.upper))

def serializeAggregations (ags : List AggregateField) : String :=
  String.intercalate ","
    (ags.map (fun a => a.function ++ "." ++ a.aliasName))

def serializeSort (ss : List SortField) : String :=
  String.intercalate "," (ss.map (fun s => s.field ++ "." ++ toString s.desc))

/-- The query-result cache key: `md5(":".join(cache_key_parts))` over the
normalized request parts listed in the source (tenant, namespace, table,
filters, projection, aggregations, group_by, having, sort, limit,
include_deleted).  The hash of the joined text is modelled by the joined
text itself (both are deterministic in the request). -/
def queryCacheKey (req : QueryRequest) : String :=
  String.intercalate ":"
    [ req.tenant_id
    , req.ns
    , req.table
    , if req.filters ≠ [] then serializeFilters req.filters else ""
    , if req.projection ≠ [] then serializeProjection req.projection else "*"
    , if req.aggregations ≠ [] then serializeAggregations req.aggregations else ""
    , if req.group_by ≠ [] then String.intercalate "," req.group_by else ""
    , if req.having ≠ [] then serializeFilters req.having else ""
    , if req.sort ≠ [] then serializeSort req.sort else ""
    , match req.limit with | some n => toString n | none => ""
    , toString req.include_deleted ]

/-- Fresh lookup in the metadata cache (`now - cached_time < ttl`). -/
def lookupMetaFresh (cache : MetaCache) (id : String) (now ttl : Int) :
    Option String :=
  match cache.find? (fun e => e.1 == id) with
  | some (_, path, t) => if now - t < ttl then some path else none
  | none => none

/-- `self._metadata_cache[key] = (path, now)` (dict assignment). -/
def setMetaEntry (cache : MetaCache) (id path : String) (now : Int) :
    MetaCache :=
  match cache with
  | [] => [(id, path, now)]
  | e :: rest =>
      if e.1 = id then (id, path, now) :: rest
      else e :: setMetaEntry rest id path now

/-- FullIcebergOperations._get_metadata_path: fresh cache entry, else load
from the catalog (`catalog = none` models the load raising because the
table does not exist) and store the result with the current time. -/
def getMetadataPath (cache : MetaCache) (id : String) (now : Int)
    (catalog : Option String) : Option (String × MetaCache) :=
  match lookupMetaFresh cache id now 300 with
  | some path => some (path, cache)
  | none =>
      match catalog with
      | some path => some (path, setMetaEntry cache id path now)
      | none => none

/-- Fresh lookup in the query-result cache (TTL 60 s). -/
def lookupQueryFresh (qc : QueryCache) (key : String) (now : Int) :
    Option QueryResponseData :=
  match qc.find? (fun e => e.1 == key) with
  | some (_, d, t) => if now - t < 60 then some d else none
  | none => none

/-- Store a successful response and apply the size-100 eviction
(`del self._query_cache[next(iter(...))]` removes the oldest entry). -/
def insertQueryCache (qc : QueryCache) (key : String) (d : QueryResponseData)
    (now : Int) : QueryCache :=
  let qc₂ := qc ++ [(key, d, now)]
  if qc₂.length > 100 then qc₂.drop 1 else qc₂

/-- The row set the query SQL produces: rank all tenant rows by `_version`
per `_record_id` inside the CTE, keep `rn = 1`, then apply the
soft-delete filter (unless include_deleted) and the user filters OUTSIDE
the CTE, then LIMIT.  Projections, aggregations, GROUP BY and ORDER BY
reshape or reorder the emitted rows; they are modelled at SQL-text level
(buildQuerySql) and left out of the row-set semantics, which no claim
inspects under aggregation. -/
def queryRows (req : QueryRequest) (t : List Rec) : List Rec :=
  let current := latestPerRecordId (t.filter (tenantEq req.tenant_id))
  let afterDeleted :=
    if req.include_deleted then current
    else current.filter (fun r => !isDeletedTrue r)
  let afterFilters :=
    if req.filters ≠ [] then
      afterDeleted.filter (fun r => req.filters.all (fun f => evalFilter f r))
    else afterDeleted
  match req.limit with
  | some n => afterFilters.take n
  | none => afterFilters

/-- FullIcebergOperations.query.  Control flow of the source: (1) a fresh
query-result cache entry is returned immediately — with `cache_hit := true`
and a fresh query id — before any table lookup; (2) otherwise the metadata
pointer is resolved through the metadata cache / catalog, and a missing
table (the load raises) returns success with empty records and
`row_count = 0`, caching nothing; (3) otherwise the scan runs and the
successful response is stored in the query-result cache.  Engine-side
execution failures (QUERY_ERROR) are outside the model. -/
def query (catalog : Option String) (now : Int) (qid : Nat)
    (req : QueryRequest) (mc : MetaCache) (qc : QueryCache) (t : List Rec) :
    QueryResponse × MetaCache × QueryCache :=
  let key := queryCacheKey req
  match lookupQueryFresh qc key now with
  | some d =>
      ({ success := true,
         data := some { d with query_metadata :=
           { d.query_metadata with cache_hit := true, query_id := qid } },
         errorCode := none }, mc, qc)
  | none =>
      let id := getTableIdentifier req.tenant_id req.ns req.table
      let cacheHit := (lookupMetaFresh mc id now 300).isSome
      match getMetadataPath mc id now catalog with
      | none =>
          let d : QueryResponseData :=
            { records := [],
              query_metadata :=
                { row_count := 0, cache_hit := false, query_id := qid } }
          ({ success := true, data := some d, errorCode := none }, mc, qc)
      | some (_, mc₂) =>
          let rows := queryRows req t
          let d : QueryResponseData :=
            { records := rows,
              query_metadata :=
                { row_count := rows.length, cache_hit := cacheHit,
                  query_id := qid } }
          ({ success := true, data := some d, errorCode := none },
           mc₂, insertQueryCache qc key d now)

/-! ## Compaction: snapshot expiration

From FullIcebergOperations.compact, lines 1316-1354.  Snapshots are
modelled as the ordered list of their commit instants in milliseconds,
oldest first. -/

/-- Contract of `manage_snapshots().expire_snapshots().expire_older_than(ms)`
(§6.3: snapshot expiration by timestamp): snapshots committed strictly
before the instant are removed, the current (latest) one is always kept. -/
def expireOlderThan (ms : Int) (snaps : List Int) : List Int :=
  match snaps.getLast? with
  | none => snaps
  | some latest => snaps.filter (fun t => !(t < ms) || t == latest)

/-- The expiration bound the spec prescribes: `now − snapshot_retention_hours`
in milliseconds.  The source computes this value (as `retention_time`, a
datetime) and never uses it. -/
def retentionCutoffMs (snapshot_retention_hours : Int) (now : Int) : Int :=
  now - snapshot_retention_hours * 3600000

/-- The snapshot-expiration step of compact.  The source computes
`retention_time = utcnow() - timedelta(hours=request.snapshot_retention_hours)`
and never uses it; it then sets `older_than_ms` to the CURRENT instant
(comment there: "for compaction, we want to delete immediately") and, when
more than one snapshot exists, expires with that bound and reports
`snapshots_expired = len(all_snapshots) - 1`.  Returns (snapshots_expired,
remaining snapshots). -/
def compactExpireSnapshots (expire_snapshots : Bool)
    (snapshot_retention_hours : Int) (now : Int) (snaps : List Int) :
    Nat × List Int :=
  if expire_snapshots then
    let _retention_time := retentionCutoffMs snapshot_retention_hours now
    let older_than_ms := now
    if snaps.length > 1 then
      (snaps.length - 1, expireOlderThan older_than_ms snaps)
    else (0, snaps)
  else (0, snaps)

/-- FullIcebergOperations.compact, metadata-cache effect: after the
overwrite commit the table entry is removed
(`del self._metadata_cache[table_identifier]`). -/
def compactCacheEffect (cache : MetaCache) (id : String) : MetaCache :=
  eraseCacheEntry cache id

/-- FullIcebergOperations.drop_table, metadata-cache effect (same eager
invalidation). -/
def dropTableCacheEffect (cache : MetaCache) (id : String) : MetaCache :=
  eraseCacheEntry cache id

/-! ## Operation dispatch

From src/src/lambda_handler.py (lines 173-238), the DatabaseOperations
wrapper (src/src/operations_full_iceberg.py, lines 1719-1765) and
StorageOperations (src/src/operations_storage.py). -/

/-- The static methods the DatabaseOperations wrapper class defines. -/
def databaseOperationsMethods : List String :=
  [ "write", "query", "update", "delete", "hard_delete", "create_table"
  , "describe_table", "list_tables", "compact", "drop_table"
  , "drop_namespace" ]

/-- The static methods StorageOperations defines (besides its private S3
client helper). -/
def storageOperationsMethods : List String :=
  ["get_upload_url", "get_download_url"]

inductive DispatchTarget where
  | db (method : String)
  | storage (method : String)
  | unknown
deriving DecidableEq, Repr

/-- The operation routing of lambda_handler: each OperationType branch
names the class method it invokes. -/
def routeOperation (op : String) : DispatchTarget :=
  match op with
  | "QUERY" => .db "query"
  | "WRITE" => .db "write"
  | "UPDATE" => .db "update"
  | "DELETE" => .db "delete"
  | "HARD_DELETE" => .db "hard_delete"
  | "UPSERT" => .db "upsert"
  | "COMPACT" => .db "compact"
  | "CREATE_TABLE" => .db "create_table"
  | "LIST_TABLES" => .db "list_tables"
  | "DESCRIBE_TABLE" => .db "describe_table"
  | "DROP_TABLE" => .db "drop_table"
  | "DROP_NAMESPACE" => .db "drop_namespace"
  | "EXPORT_CSV" => .db "export_csv"
  | "GET_UPLOAD_URL" => .storage "get_upload_url"
  | "GET_DOWNLOAD_URL" => .storage "get_download_url"
  | _ => .unknown

/-- The HTTP status lambda_handler produces for a routed POST body,
abstracting the invoked operation result as `opSuccess`: unknown operation
→ 400; a dispatch to a method its class does not define raises
AttributeError, which only the generic `except Exception` handler catches
→ 500 internal server error; an existing method returns its envelope with
200 on success and 400 on operation failure. -/
def handlerStatusCode (op : String) (opSuccess : Bool) : Nat :=
  match routeOperation op with
  | .unknown => 400
  | .db m =>
      if m ∈ databaseOperationsMethods then (if opSuccess then 200 else 400)
      else 500
  | .storage m =>
      if m ∈ storageOperationsMethods then (if opSuccess then 200 else 400)
      else 500

/-- The `_version` values stored for one logical row (`_record_id = id`),
in storage order. -/
def versionsFor (t : List Rec) (id : String) : List Int :=
  (t.filter (fun r => recordIdOf r == some (Val.str id))).map verOf

/-! ## Infrastructure for the parameterization claim (C2) -/

/-- Two filter values of the same Python shape: same scalar type, or lists
of the same length (the only aspects `_build_single_filter` inspects). -/
def sameShapeFV : FilterValue → FilterValue → Prop
  | .val Val.null, .val Val.null => True
  | .val (Val.bool _), .val (Val.bool _) => True
  | .val (Val.int _), .val (Val.int _) => True
  | .val (Val.str _), .val (Val.str _) => True
  | .vlist vs, .vlist ws => vs.length = ws.length
  | _, _ => False

/-- Two filters that differ at most in their values (same field, same
operator, same value shape). -/
def sameShapeFilter (f g : Filter) : Prop :=
  f.field = g.field ∧ f.operator = g.operator ∧ sameShapeFV f.value g.value

/-- The bound parameters one filter contributes: the elements of its list
for the in-operator, otherwise the value itself. -/
def singleParams (f : Filter) : List FilterValue :=
  match f.operator, f.value with
  | "in", .vlist vs => vs.map FilterValue.val
  | _, _ => [f.value]

/-- The bound parameters of a filter list. -/
def userParams (fs : List Filter) : List FilterValue :=
  (fs.map singleParams).flatten

theorem pyTypeName_eq_of_sameShape {a b : FilterValue} (h : sameShapeFV a b) :
    TypeSafeQueryBuilder.pyTypeName a = TypeSafeQueryBuilder.pyTypeName b := by
  cases a with
  | val v =>
      cases b with
      | val w =>
          cases v <;> cases w <;>
            simp_all [sameShapeFV, TypeSafeQueryBuilder.pyTypeName]
      | vlist ws => cases v <;> simp_all [sameShapeFV]
  | vlist vs =>
      cases b with
      | val w => cases w <;> simp_all [sameShapeFV]
      | vlist ws => rfl

/-- Shape-equal filters produce the same condition SQL (and the same error,
when they error): only the parameters differ. -/
theorem build_single_filter_shape {f g : Filter} (h : sameShapeFilter f g) :
    Except.map Prod.fst (TypeSafeQueryBuilder.build_single_filter f) =
    Except.map Prod.fst (TypeSafeQueryBuilder.build_single_filter g) := by
  obtain ⟨ffield, fop, fval⟩ := f
  obtain ⟨gfield, gop, gval⟩ := g
  obtain ⟨h₁, h₂, h₃⟩ := h
  dsimp at h₁ h₂ h₃
  subst h₁
  subst h₂
  unfold TypeSafeQueryBuilder.build_single_filter
  cases hos : TypeSafeQueryBuilder.operatorSql fop with
  | none => rfl
  | some opSql =>
      by_cases hin : fop = "in"
      · simp only [hin, if_pos rfl]
        cases fval with
        | val v =>
            cases gval with
            | val w =>
                have := pyTypeName_eq_of_sameShape h₃
                simp [Except.map, this]
            | vlist ws => cases v <;> simp [sameShapeFV] at h₃
        | vlist vs =>
            cases gval with
            | val w => cases w <;> simp [sameShapeFV] at h₃
            | vlist ws =>
                simp only [sameShapeFV] at h₃
                simp [Except.map, h₃]
      · by_cases hlike : fop = "like"
        · simp [hin, hlike, Except.map]
        · simp [hin, hlike, Except.map]

/-- Either both results are the same error or both are ok with values that
the projection cannot distinguish. -/
theorem except_map_align {γ α β : Type} (f : α → β) {x y : Except γ α}
    (h : Except.map f x = Except.map f y) :
    (∃ e, x = .error e ∧ y = .error e) ∨
    (∃ a a₂, x = .ok a ∧ y = .ok a₂ ∧ f a = f a₂) := by
  cases x with
  | error e =>
      cases y with
      | error e₂ =>
          simp only [Except.map] at h
          injection h with h
          exact .inl ⟨e, rfl, by rw [h]⟩
      | ok a => simp [Except.map] at h
  | ok a =>
      cases y with
      | error e => simp [Except.map] at h
      | ok a₂ =>
          simp only [Except.map] at h
          injection h with h
          exact .inr ⟨a, a₂, rfl, rfl, h⟩

theorem buildConditions_shape {fs gs : List Filter}
    (h : List.Forall₂ sameShapeFilter fs gs) :
    Except.map (List.map Prod.fst)
        (TypeSafeQueryBuilder.buildConditions fs) =
      Except.map (List.map Prod.fst)
        (TypeSafeQueryBuilder.buildConditions gs) := by
  induction h with
  | nil => rfl
  | @cons f g fs₂ gs₂ hfg hrest ih =>
      have h₁ := build_single_filter_shape hfg
      simp only [TypeSafeQueryBuilder.buildConditions]
      rcases except_map_align Prod.fst h₁ with ⟨e, he₁, he₂⟩ |
        ⟨c, c₂, he₁, he₂, hcfst⟩
      · rw [he₁, he₂]
      · rw [he₁, he₂]
        rcases except_map_align (List.map Prod.fst) ih with ⟨e, hc₁, hc₂⟩ |
          ⟨cs, cs₂, hc₁, hc₂, hcs⟩
        · rw [hc₁, hc₂]
        · rw [hc₁, hc₂]
          show Except.ok (List.map Prod.fst (c :: cs)) =
            Except.ok (List.map Prod.fst (c₂ :: cs₂))
          simp [hcfst, hcs]

theorem string_eq_empty_of_length {a : String} (h : a.length = 0) :
    a = "" := by
  cases a with
  | mk data =>
      cases data with
      | nil => rfl
      | cons c cs => simp [String.length] at h

theorem append_ne_empty_left (a b : String) (h : a ≠ "") : a ++ b ≠ "" := by
  intro hc
  have hl := congrArg String.length hc
  rw [String.length_append] at hl
  simp only [String.length_empty] at hl
  exact h (string_eq_empty_of_length (by omega))

theorem append_ne_empty_right (a b : String) (h : b ≠ "") : a ++ b ≠ "" := by
  intro hc
  have hl := congrArg String.length hc
  rw [String.length_append] at hl
  simp only [String.length_empty] at hl
  exact h (string_eq_empty_of_length (by omega))

theorem joinWith_ne_empty (s c : String) (cs : List String) (h : c ≠ "") :
    TypeSafeQueryBuilder.joinWith s (c :: cs) ≠ "" := by
  cases cs with
  | nil => simpa [TypeSafeQueryBuilder.joinWith]
  | cons d ds =>
      simp only [TypeSafeQueryBuilder.joinWith]
      exact append_ne_empty_left _ _ (append_ne_empty_left _ _ h)

/-- A succeeding `_build_single_filter` binds exactly the filter's own
values as parameters and never emits an empty condition string. -/
theorem build_single_filter_ok {f : Filter} {c : String × List FilterValue}
    (h : TypeSafeQueryBuilder.build_single_filter f = .ok c) :
    c.2 = singleParams f ∧ c.1 ≠ "" := by
  unfold TypeSafeQueryBuilder.build_single_filter at h
  split at h
  · exact Except.noConfusion h
  · split at h
    · rename_i hin
      split at h
      · rename_i vs hv
        injection h with h
        subst h
        refine ⟨by simp [singleParams, hin, hv], ?_⟩
        exact append_ne_empty_right _ _ (by decide)
      · exact Except.noConfusion h
    · rename_i hin
      split at h
      · rename_i hlike
        injection h with h
        subst h
        refine ⟨?_, append_ne_empty_right _ _ (by decide)⟩
        simp only [singleParams, hlike]
        cases hv : f.value with
        | val v => rfl
        | vlist vs => rfl
      · rename_i hlike
        injection h with h
        subst h
        refine ⟨?_, append_ne_empty_right _ _ (by decide)⟩
        simp only [singleParams]
        cases hv : f.value with
        | val v => cases v <;> simp [hin]
        | vlist vs => simp [hin]

/-- A succeeding `buildConditions` pairs each filter with its own values,
and every condition string is nonempty. -/
theorem buildConditions_ok {fs : List Filter}
    {built : List (String × List FilterValue)}
    (h : TypeSafeQueryBuilder.buildConditions fs = .ok built) :
    built.map Prod.snd = fs.map singleParams ∧ ∀ c ∈ built, c.1 ≠ "" := by
  induction fs generalizing built with
  | nil =>
      simp only [TypeSafeQueryBuilder.buildConditions] at h
      injection h with h
      subst h
      simp
  | cons f rest ih =>
      simp only [TypeSafeQueryBuilder.buildConditions] at h
      cases hf : TypeSafeQueryBuilder.build_single_filter f with
      | error e => rw [hf] at h; exact Except.noConfusion h
      | ok c =>
          rw [hf] at h
          cases hr : TypeSafeQueryBuilder.buildConditions rest with
          | error e => rw [hr] at h; exact Except.noConfusion h
          | ok cs =>
              rw [hr] at h
              injection h with h
              subst h
              obtain ⟨h₁, h₂⟩ := build_single_filter_ok hf
              obtain ⟨h₃, h₄⟩ := ih hr
              refine ⟨by simp [h₁, h₃], ?_⟩
              intro x hx
              rcases List.mem_cons.mp hx with hx | hx
              · rw [hx]; exact h₂
              · exact h₄ x hx

theorem map_fst_filter_fst {α β γ : Type} (p : α → Bool)
    (l₁ : List (α × β)) (l₂ : List (α × γ))
    (h : l₁.map Prod.fst = l₂.map Prod.fst) :
    (l₁.filter (fun c => p c.1)).map Prod.fst =
      (l₂.filter (fun c => p c.1)).map Prod.fst := by
  induction l₁ generalizing l₂ with
  | nil =>
      cases l₂ with
      | nil => rfl
      | cons b bs => simp at h
  | cons a as ih =>
      cases l₂ with
      | nil => simp at h
      | cons b bs =>
          simp only [List.map_cons, List.cons.injEq] at h
          obtain ⟨h₁, h₂⟩ := h
          simp only [List.filter_cons, h₁]
          cases hp : p b.1 with
          | true => simp [ih bs h₂, h₁]
          | false => exact ih bs h₂

/-- Shape-equal filter lists produce the same WHERE/HAVING SQL text (or
the same error); only the parameters differ. -/
theorem build_filters_shape {fs gs : List Filter} (clause : String)
    (h : List.Forall₂ sameShapeFilter fs gs) :
    Except.map Prod.fst (TypeSafeQueryBuilder.build_filters fs clause) =
    Except.map Prod.fst (TypeSafeQueryBuilder.build_filters gs clause) := by
  unfold TypeSafeQueryBuilder.build_filters
  cases h with
  | nil => rfl
  | @cons f g fs₂ gs₂ hfg hrest =>
      simp only [List.isEmpty_cons, Bool.false_eq_true, if_false]
      have hbc := buildConditions_shape (List.Forall₂.cons hfg hrest)
      rcases except_map_align (List.map Prod.fst) hbc with ⟨e, h₁, h₂⟩ |
        ⟨b₁, b₂, h₁, h₂, hb⟩
      · rw [h₁, h₂]
      · rw [h₁, h₂]
        have hcond : List.map Prod.fst
              (List.filter (fun c => decide (c.1 ≠ "")) b₁) =
            List.map Prod.fst (List.filter (fun c => decide (c.1 ≠ "")) b₂) :=
          map_fst_filter_fst (fun s => decide (s ≠ "")) b₁ b₂ hb
        dsimp only
        rw [hcond]
        by_cases he : (List.map Prod.fst
            (List.filter (fun c => decide (c.1 ≠ "")) b₂)).isEmpty = true
        · rw [if_pos he, if_pos he]
        · rw [if_neg he, if_neg he]
          rfl

/-- A succeeding `_build_filters` on a nonempty filter list returns a
nonempty SQL condition whose parameters are exactly the filter values. -/
theorem build_filters_ok_params {fs : List Filter} {sql : String}
    {ps : List FilterValue} (hne : fs ≠ [])
    (h : TypeSafeQueryBuilder.build_filters fs "" = .ok (sql, ps)) :
    ps = userParams fs ∧ sql ≠ "" := by
  unfold TypeSafeQueryBuilder.build_filters at h
  cases fs with
  | nil => exact absurd rfl hne
  | cons f rest =>
      simp only [List.isEmpty_cons, Bool.false_eq_true, if_false] at h
      cases hbc : TypeSafeQueryBuilder.buildConditions (f :: rest) with
      | error e => rw [hbc] at h; exact Except.noConfusion h
      | ok built =>
          rw [hbc] at h
          dsimp only at h
          obtain ⟨hsnd, hne1⟩ := buildConditions_ok hbc
          have hkept : built.filter (fun c => c.1 ≠ "") = built := by
            rw [List.filter_eq_self]
            intro c hc
            simpa using hne1 c hc
          rw [hkept] at h
          cases hb : built with
          | nil => rw [hb] at hsnd; simp at hsnd
          | cons c cs =>
              rw [hb] at h hsnd hne1
              simp only [List.map_cons, List.isEmpty_cons,
                Bool.false_eq_true, if_false] at h
              injection h with h
              have hps : ps = userParams (f :: rest) := by
                have := congrArg Prod.snd h
                simp only at this
                rw [← this]
                simp only [userParams, ← hsnd]
                rfl
              have hsql : sql = TypeSafeQueryBuilder.joinWith " AND "
                  (c.1 :: cs.map Prod.fst) := by
                have := congrArg Prod.fst h
                simp only at this
                rw [← this]
                simp
              refine ⟨hps, ?_⟩
              rw [hsql]
              exact joinWith_ne_empty _ _ _ (hne1 c (by simp))

/-- The NaT normalization only touches `_deleted_at`. -/
theorem getVal_normalizeDeletedAt (x : Rec) (k : String)
    (h : k ≠ "_deleted_at") :
    getVal (normalizeDeletedAt x) k = getVal x k := by
  unfold normalizeDeletedAt
  cases hda : getVal x "_deleted_at" with
  | none => rfl
  | some w =>
      cases w with
      | null => exact getVal_setVal_ne _ _ _ _ h
      | bool b => rfl
      | int n => rfl
      | str s => rfl

/-! ## Concrete fixtures for witnesses and counterexamples -/

def payloadX : Rec := [("name", Val.str "X")]

def filtersNameX : List Filter :=
  [⟨"name", "eq", FilterValue.val (Val.str "X")⟩]

def filtersNameZ : List Filter :=
  [⟨"name", "eq", FilterValue.val (Val.str "Z")⟩]

def likeFilterA : List Filter :=
  [⟨"name", "like", FilterValue.val (Val.str "%a%")⟩]

/-- The table after one WRITE of `payloadX` by tenant tA. -/
def tableAfterWrite : List Rec :=
  (write "tA" 0 [payloadX] [] [] "tA_default.users").1

/-- The single enriched row that WRITE appended. -/
def rowX : Rec := enrichRecord "tA" 0 payloadX

def rowAdam : Rec :=
  [ ("_tenant_id", Val.str "t"), ("_record_id", Val.str "a")
  , ("_version", Val.int 1), ("_deleted", Val.bool false)
  , ("name", Val.str "adam") ]

def rowBob : Rec :=
  [ ("_tenant_id", Val.str "t"), ("_record_id", Val.str "b")
  , ("_version", Val.int 1), ("_deleted", Val.bool false)
  , ("name", Val.str "bob") ]

def reqUsers : QueryRequest :=
  { tenant_id := "t", ns := "default", table := "users",
    projection := [.col "*"], aggregations := [], filters := [],
    group_by := [], having := [], sort := [], limit := none,
    include_deleted := false }

/-! ## Claim theorems -/

/-- C1 counterexample: an explicit mutation sequence of two WRITE
operations with the identical payload targets one logical row (the digest
collides), yet leaves `_version` values [1, 1]: not strictly increasing,
first write 1 but the second mutation again 1, and max(_version) = 1 ≠ 2 =
number of mutations applied. -/
theorem C1_counterexample :
    versionsFor
        ((write "tA" 1 [payloadX]
          (write "tA" 0 [payloadX] [] [] "tA_default.users").1
          [] "tA_default.users").1)
        (recordDigest payloadX) = [1, 1] ∧
    ¬ List.Pairwise (fun a b : Int => a < b) [1, 1] ∧
    ([1, 1] : List Int).foldl max 0 ≠ 2 := by
  refine ⟨by decide, by decide, by decide⟩

/-- C1 (amended): WRITE stamps `_version = 1` on every record it appends,
regardless of the existing versions of that `_record_id` (so a repeated
WRITE of the same payload yields another version-1 tuple, not version 2),
while an UPDATE or soft-DELETE appends, for each matched current row,
exactly one new tuple whose `_version` is one greater than that row's
(provided the user patch does not itself overwrite `_version`). -/
theorem C1_version_step (tenant : String) (now now₂ : Int) (payload : Rec)
    (upd : List (String × Val)) (fs : List Filter) (t : List Rec) (r : Rec)
    (v : Int) (hfs : fs ≠ []) (hupd : bindsKey upd "_version" = false)
    (hr : r ∈ updateMatched tenant fs t)
    (hv : getVal r "_version" = some (Val.int v)) :
    getVal (enrichRecord tenant now payload) "_version" = some (Val.int 1) ∧
    (update tenant now₂ upd fs t).table =
      t ++ (updateMatched tenant fs t).map (applyUpdateRow now₂ upd) ∧
    getVal (applyUpdateRow now₂ upd r) "_version" =
      some (Val.int (v + 1)) := by
  refine ⟨?_, ?_, ?_⟩
  · simp only [enrichRecord, setVals]
    rw [getVal_setVal_ne _ _ _ _ (by decide),
      getVal_setVal_ne _ _ _ _ (by decide), getVal_setVal_self]
  · cases fs with
    | nil => exact absurd rfl hfs
    | cons a as => simp [update]
  · simp only [applyUpdateRow]
    rw [getVal_setVals_not_bound _ _ _ hupd,
      getVal_normalizeDeletedAt _ _ (by decide),
      getVal_setVal_ne _ _ _ _ (by decide), getVal_setVal_self]
    have hva : verAsInt r = v := by simp [verAsInt, hv]
    rw [hva]

/-- C1 witness: the amended step facts at a concrete one-write table. -/
theorem C1_version_step_witness :
    getVal (enrichRecord "tA" 0 payloadX) "_version" = some (Val.int 1) ∧
    (update "tA" 1 [("age", Val.int 31)] filtersNameX tableAfterWrite).table =
      tableAfterWrite ++
        (updateMatched "tA" filtersNameX tableAfterWrite).map
          (applyUpdateRow 1 [("age", Val.int 31)]) ∧
    getVal (applyUpdateRow 1 [("age", Val.int 31)] rowX) "_version" =
      some (Val.int (1 + 1)) :=
  C1_version_step "tA" 0 1 payloadX [("age", Val.int 31)] filtersNameX
    tableAfterWrite rowX 1 (by decide) (by decide) (by decide) (by decide)

/-- C9: the soft DELETE is the UPDATE with the updates map
`{_deleted: true, _deleted_at: now}` and the same tenant and filters:
same resulting table, same success and error, and `records_deleted` equals
that update's `records_updated` whenever the update succeeds. -/
theorem C9_soft_delete_refines_update (tenant : String) (now : Int)
    (fs : List Filter) (t : List Rec) :
    (delete tenant now fs t).table =
      (update tenant now
        [("_deleted", Val.bool true), ("_deleted_at", Val.int now)]
        fs t).table ∧
    (delete tenant now fs t).success =
      (update tenant now
        [("_deleted", Val.bool true), ("_deleted_at", Val.int now)]
        fs t).success ∧
    (delete tenant now fs t).errorCode =
      (update tenant now
        [("_deleted", Val.bool true), ("_deleted_at", Val.int now)]
        fs t).errorCode ∧
    ((update tenant now
        [("_deleted", Val.bool true), ("_deleted_at", Val.int now)]
        fs t).success = true →
      (delete tenant now fs t).records_deleted =
        (update tenant now
          [("_deleted", Val.bool true), ("_deleted_at", Val.int now)]
          fs t).records_updated) := by
  refine ⟨rfl, rfl, rfl, ?_⟩
  intro h
  simp [delete, h]

/-- C9 witness: the delete/update agreement at a concrete one-row table. -/
theorem C9_soft_delete_refines_update_witness :
    (update "tA" 2 [("_deleted", Val.bool true), ("_deleted_at", Val.int 2)]
      filtersNameX tableAfterWrite).success = true ∧
    (delete "tA" 2 filtersNameX tableAfterWrite).records_deleted =
      (update "tA" 2
        [("_deleted", Val.bool true), ("_deleted_at", Val.int 2)]
        filtersNameX tableAfterWrite).records_updated :=
  ⟨by decide,
   (C9_soft_delete_refines_update "tA" 2 filtersNameX tableAfterWrite).2.2.2
     (by decide)⟩

/-- C10: the per-row update step applies the user patch AFTER the
system-column maintenance: a patch that binds no system column leaves
`_record_id` and `_tenant_id` of the matched row unchanged, and whatever
key the patch does bind (including system columns such as `_version` or
`_deleted`) ends up with the user-supplied value in the appended record. -/
theorem C10_update_patch_order (now : Int) (upd : List (String × Val))
    (r : Rec) (k : String) (v : Val)
    (hrid : bindsKey upd "_record_id" = false)
    (hten : bindsKey upd "_tenant_id" = false)
    (hk : lookupLast upd k = some v) :
    getVal (applyUpdateRow now upd r) "_record_id" =
      getVal r "_record_id" ∧
    getVal (applyUpdateRow now upd r) "_tenant_id" =
      getVal r "_tenant_id" ∧
    getVal (applyUpdateRow now upd r) k = some v := by
  refine ⟨?_, ?_, ?_⟩
  · simp only [applyUpdateRow]
    rw [getVal_setVals_not_bound _ _ _ hrid,
      getVal_normalizeDeletedAt _ _ (by decide),
      getVal_setVal_ne _ _ _ _ (by decide),
      getVal_setVal_ne _ _ _ _ (by decide)]
  · simp only [applyUpdateRow]
    rw [getVal_setVals_not_bound _ _ _ hten,
      getVal_normalizeDeletedAt _ _ (by decide),
      getVal_setVal_ne _ _ _ _ (by decide),
      getVal_setVal_ne _ _ _ _ (by decide)]
  · simp only [applyUpdateRow]
    exact getVal_setVals_bound _ _ _ _ hk

/-- C10 witness: a patch binding a user column and the system column
`_version` — the user value 99 overwrites the maintained version, while
`_record_id` and `_tenant_id` are preserved. -/
theorem C10_update_patch_order_witness :
    getVal (applyUpdateRow 1 [("age", Val.int 31), ("_version", Val.int 99)]
      rowX) "_record_id" = getVal rowX "_record_id" ∧
    getVal (applyUpdateRow 1 [("age", Val.int 31), ("_version", Val.int 99)]
      rowX) "_tenant_id" = getVal rowX "_tenant_id" ∧
    getVal (applyUpdateRow 1 [("age", Val.int 31), ("_version", Val.int 99)]
      rowX) "_version" = some (Val.int 99) :=
  C10_update_patch_order 1 [("age", Val.int 31), ("_version", Val.int 99)]
    rowX "_version" (Val.int 99) (by decide) (by decide) (by decide)

/-- C7: a HARD_DELETE without `confirm = true` returns a failed response
with code CONFIRMATION_REQUIRED leaving the table and the metadata cache
untouched; a confirmed HARD_DELETE whose (nonempty) filter list matches
zero stored rows returns success with `records_deleted = 0` and
`files_rewritten = 0`, again leaving the table untouched — no row-level
delete is issued. -/
theorem C7_hard_delete_guard (tenant : String) (confirm : Bool)
    (fs : List Filter) (files : List Rec → Nat) (t : List Rec)
    (cache : MetaCache) :
    (confirm = false →
      hard_delete tenant confirm fs files t cache =
        ({ success := false, errorCode := some "CONFIRMATION_REQUIRED",
           data := none }, t, cache)) ∧
    (confirm = true → fs ≠ [] → countSqlMatches tenant fs t = 0 →
      hard_delete tenant confirm fs files t cache =
        ({ success := true, errorCode := none,
           data := some { records_deleted := 0, files_rewritten := 0 } },
         t, cache)) := by
  constructor
  · intro h
    subst h
    rfl
  · intro hc hfs h0
    subst hc
    cases fs with
    | nil => exact absurd rfl hfs
    | cons a as => simp [hard_delete, h0]

/-- C7 witness: both guarded branches at a concrete one-row table. -/
theorem C7_hard_delete_guard_witness :
    hard_delete "tA" false filtersNameX (fun l => l.length)
        tableAfterWrite [] =
      ({ success := false, errorCode := some "CONFIRMATION_REQUIRED",
         data := none }, tableAfterWrite, []) ∧
    countSqlMatches "tA" filtersNameZ tableAfterWrite = 0 ∧
    hard_delete "tA" true filtersNameZ (fun l => l.length)
        tableAfterWrite [] =
      ({ success := true, errorCode := none,
         data := some { records_deleted := 0, files_rewritten := 0 } },
       tableAfterWrite, []) :=
  ⟨(C7_hard_delete_guard "tA" false filtersNameX (fun l => l.length)
      tableAfterWrite []).1 rfl,
   by decide,
   (C7_hard_delete_guard "tA" true filtersNameZ (fun l => l.length)
      tableAfterWrite []).2 rfl (by decide) (by decide)⟩

/-- C4 (code bug, evaluated at the failing input): the catalog-native
lowering has no branch for the like-operator and silently skips it instead
of rejecting the request.  On a two-row table where only "adam" matches
`name LIKE %a%`, the confirmed HARD_DELETE succeeds (instead of failing),
reports `records_deleted = 1` (the count computed WITH the like filter),
yet physically removes BOTH tenant rows — the row "bob", which does not
satisfy the filter list, is deleted too, so the deleted set exceeds the
matched set. -/
theorem C4_like_filter_silently_dropped :
    buildIcebergFilterFromArray likeFilterA = none ∧
    (hard_delete "t" true likeFilterA (fun l => l.length)
        [rowAdam, rowBob] []).1 =
      { success := true, errorCode := none,
        data := some { records_deleted := 1, files_rewritten := 2 } } ∧
    (hard_delete "t" true likeFilterA (fun l => l.length)
        [rowAdam, rowBob] []).2.1 = [] ∧
    evalFilter ⟨"name", "like", FilterValue.val (Val.str "%a%")⟩ rowBob =
      false := by
  decide

/-- C6 (code bug, evaluated at the failing input): a confirmed HARD_DELETE
that physically removes a row returns with the per-process metadata cache
UNCHANGED — the stale pre-delete pointer for the very table is still served
fresh afterwards — whereas write, compaction and drop-table do erase their
table's entry. -/
theorem C6_hard_delete_cache_not_invalidated :
    (hard_delete "t" true [⟨"name", "eq", FilterValue.val (Val.str "adam")⟩]
        (fun l => l.length) [rowAdam]
        [(getTableIdentifier "t" "default" "users",
          "s3://old/metadata.json", 0)]).1.success = true ∧
    (hard_delete "t" true [⟨"name", "eq", FilterValue.val (Val.str "adam")⟩]
        (fun l => l.length) [rowAdam]
        [(getTableIdentifier "t" "default" "users",
          "s3://old/metadata.json", 0)]).2.2 =
      [(getTableIdentifier "t" "default" "users",
        "s3://old/metadata.json", 0)] ∧
    lookupMetaFresh
        (hard_delete "t" true
          [⟨"name", "eq", FilterValue.val (Val.str "adam")⟩]
          (fun l => l.length) [rowAdam]
          [(getTableIdentifier "t" "default" "users",
            "s3://old/metadata.json", 0)]).2.2
        (getTableIdentifier "t" "default" "users") 1 300 =
      some "s3://old/metadata.json" ∧
    (write "t" 1 [payloadX] []
        [(getTableIdentifier "t" "default" "users",
          "s3://old/metadata.json", 0)]
        (getTableIdentifier "t" "default" "users")).2.1 = [] ∧
    compactCacheEffect
        [(getTableIdentifier "t" "default" "users",
          "s3://old/metadata.json", 0)]
        (getTableIdentifier "t" "default" "users") = [] ∧
    dropTableCacheEffect
        [(getTableIdentifier "t" "default" "users",
          "s3://old/metadata.json", 0)]
        (getTableIdentifier "t" "default" "users") = [] := by
  decide

/-- C3 (code bug, evaluated at the failing input): lambda_handler routes
the UPSERT operation to `DatabaseOperations.upsert`, but the
DatabaseOperations wrapper defines no such method — the dispatch raises
AttributeError, which only the generic exception handler catches, so every
UPSERT request (whatever its records) yields HTTP 500, never the
`{records_inserted, records_updated, total_affected}` success the claim
describes. -/
theorem C3_upsert_dispatch_unimplemented :
    routeOperation "UPSERT" = DispatchTarget.db "upsert" ∧
    ¬ "upsert" ∈ databaseOperationsMethods ∧
    handlerStatusCode "UPSERT" true = 500 ∧
    handlerStatusCode "UPSERT" false = 500 := by
  decide

/-- C5 counterexample: with `expire_snapshots` set, default retention of
168 hours, and three snapshots all YOUNGER than `now − 168 h` (so the
claim keeps all of them and expires none), the code expires two snapshots
and keeps only the latest. -/
theorem C5_counterexample :
    (∀ s ∈ ([900 * 3600000, 950 * 3600000, 1000 * 3600000] : List Int),
      retentionCutoffMs 168 (1000 * 3600000) ≤ s) ∧
    compactExpireSnapshots true 168 (1000 * 3600000)
        [900 * 3600000, 950 * 3600000, 1000 * 3600000] =
      (2, [1000 * 3600000]) := by
  refine ⟨by decide, by decide⟩

/-- C5 (amended): when `expire_snapshots` is set and more than one
snapshot exists, compaction ignores `snapshot_retention_hours` entirely
(the outcome is identical for any two retention values), expires with the
bound `now` — every snapshot committed strictly before the current instant
except the latest — and reports `snapshots_expired = count − 1`. -/
theorem C5_retention_ignored (rh₁ rh₂ now : Int) (snaps : List Int)
    (h : 1 < snaps.length) :
    compactExpireSnapshots true rh₁ now snaps =
      compactExpireSnapshots true rh₂ now snaps ∧
    (compactExpireSnapshots true rh₁ now snaps).1 = snaps.length - 1 ∧
    (compactExpireSnapshots true rh₁ now snaps).2 =
      expireOlderThan now snaps := by
  refine ⟨rfl, ?_, ?_⟩
  · simp [compactExpireSnapshots, h]
  · simp [compactExpireSnapshots, h]

/-- C5 witness: retention 168 h versus 0 h on a concrete history. -/
theorem C5_retention_ignored_witness :
    (1 < ([10, 20, 30] : List Int).length) ∧
    compactExpireSnapshots true 168 30 [10, 20, 30] =
      compactExpireSnapshots true 0 30 [10, 20, 30] ∧
    (compactExpireSnapshots true 168 30 [10, 20, 30]).1 =
      ([10, 20, 30] : List Int).length - 1 :=
  ⟨by decide,
   (C5_retention_ignored 168 0 30 [10, 20, 30] (by decide)).1,
   (C5_retention_ignored 168 0 30 [10, 20, 30] (by decide)).2.1⟩

/-- C8 counterexample: a QUERY served from the fresh query-result cache is
returned BEFORE any table lookup, so a request naming a table that no
longer exists in the catalog (here: queried once, then dropped — the drop
erases the metadata cache but not the query-result cache) returns the
cached non-empty records with `row_count = 1`, not the success-empty
response the claim promises for every missing-table query. -/
theorem C8_counterexample :
    ((query none 10 2 reqUsers
        (dropTableCacheEffect
          (query (some "s3://meta/v1.json") 0 1 reqUsers [] [] [rowAdam]).2.1
          (getTableIdentifier "t" "default" "users"))
        (query (some "s3://meta/v1.json") 0 1 reqUsers [] [] [rowAdam]).2.2
        []).1.success = true) ∧
    ((query none 10 2 reqUsers
        (dropTableCacheEffect
          (query (some "s3://meta/v1.json") 0 1 reqUsers [] [] [rowAdam]).2.1
          (getTableIdentifier "t" "default" "users"))
        (query (some "s3://meta/v1.json") 0 1 reqUsers [] [] [rowAdam]).2.2
        []).1.data.map
          (fun d => (d.query_metadata.row_count, d.records.isEmpty)) =
      some (1, false)) := by
  decide

/-- C8 (amended): a QUERY naming a table absent from the catalog returns
success with `records = []` and `row_count = 0` — provided no fresh
query-result cache entry exists for the request (a fresh one is returned
as-is before any table lookup) and no fresh metadata-cache entry exists
for the table (a fresh one would send the scan to the stale pointer
instead). -/
theorem C8_missing_table_success_empty (req : QueryRequest) (now : Int)
    (qid : Nat) (mc : MetaCache) (qc : QueryCache) (t : List Rec)
    (hq : lookupQueryFresh qc (queryCacheKey req) now = none)
    (hm : lookupMetaFresh mc
      (getTableIdentifier req.tenant_id req.ns req.table) now 300 = none) :
    query none now qid req mc qc t =
      ({ success := true,
         data := some
           { records := [],
             query_metadata :=
               { row_count := 0, cache_hit := false, query_id := qid } },
         errorCode := none }, mc, qc) := by
  unfold query
  dsimp only
  rw [hq]
  dsimp only
  unfold getMetadataPath
  rw [hm]

/-- C8 witness: the missing-table response on empty caches. -/
theorem C8_missing_table_success_empty_witness :
    lookupQueryFresh [] (queryCacheKey reqUsers) 0 = none ∧
    lookupMetaFresh [] (getTableIdentifier "t" "default" "users") 0 300 =
      none ∧
    query none 0 7 reqUsers [] [] [] =
      ({ success := true,
         data := some
           { records := [],
             query_metadata :=
               { row_count := 0, cache_hit := false, query_id := 7 } },
         errorCode := none }, [], []) :=
  ⟨rfl, rfl, C8_missing_table_success_empty reqUsers 0 7 [] [] [] rfl rfl⟩


/-- The C2 counterexample requests: identical in every component —
including the filter values — except the user-supplied envelope scalar
tenant_id. -/
def reqTenantA : QueryRequest :=
  { tenant_id := "tenantA", ns := "default", table := "users",
    projection := [.col "*"], aggregations := [],
    filters := [⟨"name", "eq", FilterValue.val (Val.str "x")⟩],
    group_by := [], having := [], sort := [], limit := none,
    include_deleted := false }

def reqTenantB : QueryRequest := { reqTenantA with tenant_id := "tenantB" }

/-- C2 counterexample: two QUERY requests that differ only in the
user-supplied tenant_id produce DIFFERENT executed SQL texts while binding
identical parameter lists — the envelope scalar is interpolated into the
SQL string (`WHERE _tenant_id = '...'`), not passed as a bound parameter,
refuting "no user-supplied scalar is interpolated into executed SQL". -/
theorem C2_counterexample :
    (buildQuerySql "mp" reqTenantA).toOption.map Prod.fst ≠
      (buildQuerySql "mp" reqTenantB).toOption.map Prod.fst ∧
    (buildQuerySql "mp" reqTenantA).toOption.map Prod.snd =
      (buildQuerySql "mp" reqTenantB).toOption.map Prod.snd := by
  refine ⟨by decide, by decide⟩

/-- C2 (amended): filter and HAVING VALUES are fully parameterized — two
requests that agree on everything except those values (same fields,
operators and value shapes) produce the identical SQL text, or fail with
the identical builder error, and a succeeding build binds exactly the
filter values followed by the having values as parameters.  The envelope
tenant_id (together with the metadata path, identifiers, sort and LIMIT)
is interpolated into the text instead — see the counterexample. -/
theorem C2_filter_values_parameterized (metadata_path tenant nsp table :
      String)
    (projection : List Projection) (aggregations : List AggregateField)
    (group_by : List String) (sort : List SortField) (limit : Option Nat)
    (include_deleted : Bool) (f₁ f₂ hv₁ hv₂ : List Filter)
    (hf : List.Forall₂ sameShapeFilter f₁ f₂)
    (hh : List.Forall₂ sameShapeFilter hv₁ hv₂) :
    Except.map Prod.fst (buildQuerySql metadata_path
      ⟨tenant, nsp, table, projection, aggregations, f₁, group_by, hv₁,
        sort, limit, include_deleted⟩) =
    Except.map Prod.fst (buildQuerySql metadata_path
      ⟨tenant, nsp, table, projection, aggregations, f₂, group_by, hv₂,
        sort, limit, include_deleted⟩) ∧
    (∀ sql ps, buildQuerySql metadata_path
        ⟨tenant, nsp, table, projection, aggregations, f₁, group_by, hv₁,
          sort, limit, include_deleted⟩ = .ok (sql, ps) →
      ps = userParams f₁ ++ userParams hv₁) := by
  have hEf : Except.map Prod.fst
        (if f₁.isEmpty then Except.ok ("", ([] : List FilterValue))
         else TypeSafeQueryBuilder.build_filters f₁ "") =
      Except.map Prod.fst
        (if f₂.isEmpty then Except.ok ("", [])
         else TypeSafeQueryBuilder.build_filters f₂ "") := by
    cases hf with
    | nil => rfl
    | @cons a b l₁ l₂ hab hl =>
        simp only [List.isEmpty_cons, Bool.false_eq_true, if_false]
        exact build_filters_shape "" (List.Forall₂.cons hab hl)
  have hEh : Except.map Prod.fst
        (if hv₁.isEmpty then Except.ok ("", ([] : List FilterValue))
         else TypeSafeQueryBuilder.build_filters hv₁ "") =
      Except.map Prod.fst
        (if hv₂.isEmpty then Except.ok ("", [])
         else TypeSafeQueryBuilder.build_filters hv₂ "") := by
    cases hh with
    | nil => rfl
    | @cons a b l₁ l₂ hab hl =>
        simp only [List.isEmpty_cons, Bool.false_eq_true, if_false]
        exact build_filters_shape "" (List.Forall₂.cons hab hl)
  constructor
  · unfold buildQuerySql
    dsimp only
    rcases except_map_align Prod.fst hEf with ⟨e, he₁, he₂⟩ |
      ⟨c, c₂, he₁, he₂, hcf⟩
    · rw [he₁, he₂]
    · obtain ⟨fsql, fparams⟩ := c
      obtain ⟨fsql₂, fparams₂⟩ := c₂
      simp only at hcf
      subst hcf
      rw [he₁, he₂]
      dsimp only
      rcases except_map_align Prod.fst hEh with ⟨e, hh₁, hh₂⟩ |
        ⟨d, d₂, hh₁, hh₂, hdf⟩
      · rw [hh₁, hh₂]
      · obtain ⟨hsql, hparams⟩ := d
        obtain ⟨hsql₂, hparams₂⟩ := d₂
        simp only at hdf
        subst hdf
        rw [hh₁, hh₂]
        rfl
  · intro sql ps h
    unfold buildQuerySql at h
    dsimp only at h
    rcases hcase : (if f₁.isEmpty then Except.ok ("", ([] : List FilterValue))
        else TypeSafeQueryBuilder.build_filters f₁ "") with e | ⟨fsql, fparams⟩
    · rw [hcase] at h
      exact Except.noConfusion h
    · rw [hcase] at h
      dsimp only at h
      have hfp : fparams = userParams f₁ := by
        cases hf1 : f₁ with
        | nil =>
            rw [hf1] at hcase
            simp only [List.isEmpty_nil, if_true] at hcase
            injection hcase with hcase
            have h2 : ([] : List FilterValue) = fparams :=
              congrArg Prod.snd hcase
            rw [← h2]
            rfl
        | cons a as =>
            rw [hf1] at hcase
            simp only [List.isEmpty_cons, Bool.false_eq_true, if_false]
              at hcase
            exact (build_filters_ok_params (by simp) hcase).1
      rcases hhcase : (if hv₁.isEmpty then
          Except.ok ("", ([] : List FilterValue))
          else TypeSafeQueryBuilder.build_filters hv₁ "") with
        e | ⟨hsql, hparams⟩
      · rw [hhcase] at h
        exact Except.noConfusion h
      · rw [hhcase] at h
        dsimp only at h
        injection h with h
        have hps := congrArg Prod.snd h
        simp only at hps
        cases hh1 : hv₁ with
        | nil =>
            rw [hh1] at hhcase
            simp only [List.isEmpty_nil, if_true] at hhcase
            injection hhcase with hhcase
            have hq1 : "" = hsql := congrArg Prod.fst hhcase
            rw [← hq1, if_neg (by simp)] at hps
            rw [← hps, hfp]
            simp [userParams]
        | cons a as =>
            rw [hh1] at hhcase
            simp only [List.isEmpty_cons, Bool.false_eq_true, if_false]
              at hhcase
            obtain ⟨hhp, hhsql⟩ :=
              build_filters_ok_params (by simp) hhcase
            rw [if_pos hhsql] at hps
            rw [← hps, hfp, hhp]

/-- C2 witness: two shape-equal filter lists whose values differ ("x"
versus a typical injection payload) yield the identical SQL text. -/
theorem C2_filter_values_parameterized_witness :
    List.Forall₂ sameShapeFilter
      [⟨"name", "eq", FilterValue.val (Val.str "x")⟩]
      [⟨"name", "eq", FilterValue.val (Val.str "x OR 1=1 --")⟩] ∧
    Except.map Prod.fst (buildQuerySql "mp"
      ⟨"t", "default", "users", [Projection.col "*"], [],
        [⟨"name", "eq", FilterValue.val (Val.str "x")⟩], [], [], [],
        none, false⟩) =
    Except.map Prod.fst (buildQuerySql "mp"
      ⟨"t", "default", "users", [Projection.col "*"], [],
        [⟨"name", "eq", FilterValue.val (Val.str "x OR 1=1 --")⟩], [], [],
        [], none, false⟩) := by
  have hf : List.Forall₂ sameShapeFilter
      [⟨"name", "eq", FilterValue.val (Val.str "x")⟩]
      [⟨"name", "eq", FilterValue.val (Val.str "x OR 1=1 --")⟩] :=
    List.Forall₂.cons ⟨rfl, rfl, trivial⟩ List.Forall₂.nil
  exact ⟨hf,
    (C2_filter_values_parameterized "mp" "t" "default" "users"
      [Projection.col "*"] [] [] [] none false
      [⟨"name", "eq", FilterValue.val (Val.str "x")⟩]
      [⟨"name", "eq", FilterValue.val (Val.str "x OR 1=1 --")⟩] [] []
      hf List.Forall₂.nil).1⟩
